import Mathlib

/-!
# Verification of the Pipeline Orchestration & Multi-Language Validation Engine

Shallow embedding of the Go sources of `kevinpranata97/golang-ai-agent`:

* the Workflow Engine (`package workflow`): named pipelines of steps,
  executed in order with fail-fast semantics, plus active/total job counters;
* the Application Tester (`package apptesting`): six fixed checks
  (build, static, unit, api, security, performance) folded into one report,
  together with the language detector and the hardcoded-secret scanner.

External effects (filesystem probes, subprocess execution, HTTP probes) are
modelled by explicit environment records of oracle functions, so every
definition is executable on concrete inputs.  Go `float64` coverage values
are modelled by `ℚ` (exact arithmetic); `time.Duration` is modelled by `Nat`
nanoseconds.
-/

namespace GolangAgent

/-! ## Workflow engine data model (`internal/workflow`) -/

/-- `workflow.Step`: one named unit of work inside a pipeline.
`timeout` is the declared per-step timeout in nanoseconds (`time.Duration`). -/
structure Step where
  name : String
  command : String
  args : List String
  workDir : String := ""
  timeout : Nat := 0
deriving Repr, DecidableEq

/-- `workflow.Workflow`: a named ordered list of steps. -/
structure Workflow where
  name : String
  steps : List Step
deriving Repr, DecidableEq

/-- `workflow.Context` (commit list omitted: never read by the engine). -/
structure Context where
  repository : String := ""
  cloneURL : String := ""
  ref : String := ""
  workDir : String := ""
deriving Repr, DecidableEq

/-- `workflow.StepResult`. -/
structure StepResult where
  name : String
  success : Bool
  output : String
  error : String
  duration : Nat
deriving Repr, DecidableEq

/-- `workflow.Result` (metadata map omitted: never read by the claims). -/
structure Result where
  success : Bool
  error : String
  steps : List StepResult
  context : Context
deriving Repr, DecidableEq

/-- `workflow.Engine`: the registered pipelines (a map, modelled as an
association list) and the two mutex-guarded counters. -/
structure Engine where
  workflows : List (String × Workflow)
  activeJobs : Int
  totalJobs : Int
deriving Repr, DecidableEq

/-- `filepath.Join` for the two-component joins used by the engine
(modulo path cleaning, which no claim depends on). -/
def pjoin (a b : String) : String := a ++ "/" ++ b

/-- Oracle for the process-level effects of `executeStep`:
`fileExists` is `os.Stat err == nil`; `run cmd args dir` is
`exec.Command(cmd, args...).CombinedOutput()` in directory `dir`, returning
the combined output, the error (`none` on exit code 0) and the wall-clock
duration in nanoseconds. -/
structure ProcEnv where
  fileExists : String → Bool
  run : String → List String → String → String × Option String × Nat

/-- `args[i] = v` with Go semantics: `none` models the runtime panic
`index out of range` when `i ≥ len(args)`. -/
def setAt (l : List String) (i : Nat) (v : String) : Option (List String) :=
  if i < l.length then some (l.set i v) else none

/-- The `case "clone"` argument substitution of `executeStep`
(source lines 192-197): when `len(args) >= 2`, write `args[1] = ctx.CloneURL`
and `args[2] = filepath.Join(ctx.WorkDir, "repo")`.  Returns `none` when the
Go code would panic (the guard admits length 2, but index 2 is then out of
range). -/
def cloneArgsSubst (args : List String) (ctx : Context) : Option (List String) :=
  if 2 ≤ args.length then
    match setAt args 1 ctx.cloneURL with
    | some a => setAt a 2 (pjoin ctx.workDir "repo")
    | none => none
  else some args

/-- Command/argument preparation of `executeStep` (the `switch step.Name`
block, source lines 186-221): the clone substitution, and build/test
toolchain detection against the `repo/` subdirectory of the workspace.
`none` models the clone-case panic. -/
def prepareCommand (env : ProcEnv) (step : Step) (ctx : Context) :
    Option (String × List String) :=
  if step.name = "clone" then
    match cloneArgsSubst step.args ctx with
    | some a => some (step.command, a)
    | none => none
  else if step.name = "build" then
    let repoPath := pjoin ctx.workDir "repo"
    if env.fileExists (pjoin repoPath "go.mod") then some ("go", ["build", "./..."])
    else if env.fileExists (pjoin repoPath "package.json") then some ("npm", ["install"])
    else if env.fileExists (pjoin repoPath "Makefile") then some ("make", [])
    else some (step.command, step.args)
  else if step.name = "test" then
    let repoPath := pjoin ctx.workDir "repo"
    if env.fileExists (pjoin repoPath "go.mod") then some ("go", ["test", "./..."])
    else if env.fileExists (pjoin repoPath "package.json") then some ("npm", ["test"])
    else some (step.command, step.args)
  else some (step.command, step.args)

/-- Working-directory selection of `executeStep` (source lines 223-229). -/
def stepWorkDir (step : Step) (ctx : Context) : String :=
  if step.workDir ≠ "" then step.workDir
  else if step.name ≠ "clone" then pjoin ctx.workDir "repo"
  else ctx.workDir

/-- `Engine.executeStep`: prepares the command and arguments, picks the
working directory, runs the process and reports the outcome.  Note that
`step.timeout` is never consulted anywhere in this function, exactly as in
the source.  `none` models a runtime panic. -/
def executeStep (env : ProcEnv) (step : Step) (ctx : Context) : Option StepResult :=
  match prepareCommand env step ctx with
  | none => none
  | some (command, args) =>
    let out := env.run command args (stepWorkDir step ctx)
    some { name := step.name
           success := out.2.1.isNone
           output := out.1
           error := out.2.1.getD ""
           duration := out.2.2 }

/-- Go map lookup `e.workflows[name]`. -/
def lookupWorkflow (e : Engine) (name : String) : Option Workflow :=
  (e.workflows.find? (fun p => p.1 = name)).map Prod.snd

/-- `Engine.RegisterWorkflow`: insert/overwrite by name. -/
def RegisterWorkflow (e : Engine) (w : Workflow) : Engine :=
  { e with workflows := (w.name, w) :: e.workflows.filter (fun p => p.1 ≠ w.name) }

/-- `Engine.GetActiveJobs`. -/
def GetActiveJobs (e : Engine) : Int := e.activeJobs

/-- `Engine.GetTotalJobs`. -/
def GetTotalJobs (e : Engine) : Int := e.totalJobs

/-- The default `ci_cd` workflow registered by `NewEngine`
(`registerDefaultWorkflows`, source lines 75-114). -/
def cicdWorkflow : Workflow :=
  { name := "ci_cd"
    steps :=
      [ { name := "clone", command := "git", args := ["clone", "", ""],
          timeout := 300000000000 },
        { name := "analyze", command := "echo",
          args := ["Analyzing repository structure..."], timeout := 60000000000 },
        { name := "build", command := "echo",
          args := ["Building application..."], timeout := 600000000000 },
        { name := "test", command := "echo",
          args := ["Running tests..."], timeout := 900000000000 },
        { name := "security_scan", command := "echo",
          args := ["Running security scan..."], timeout := 300000000000 } ] }

/-- `workflow.NewEngine`. -/
def NewEngine : Engine :=
  { workflows := [("ci_cd", cicdWorkflow)], activeJobs := 0, totalJobs := 0 }

/-- Environment of one `ExecuteWorkflow` call: the process oracle plus the
outcome of `os.MkdirTemp` (`none` = the temp directory could not be created,
`some dir` = the fresh ephemeral workspace path). -/
structure WEnv where
  proc : ProcEnv
  mkdirTemp : Option String

/-- Result of one `ExecuteWorkflow` call, as observable by the caller:
the engine state after the call (the deferred `activeJobs--` has run on
every exit path, so only `totalJobs` changes net), the returned `Result`
(`none` models a step panic propagating out), and whether an ephemeral
workspace directory was ever created on disk during the call. -/
structure ExecOutcome where
  engine : Engine
  result : Option Result
  createdWorkspace : Bool
deriving Repr, DecidableEq

/-- The step loop of `ExecuteWorkflow` (source lines 159-169): execute each
step in order, append its result, and break with an error on the first
failure.  Returns the recorded results, the final success flag and the
top-level error string; `none` models a step panic. -/
def runSteps (env : ProcEnv) (ctx : Context) :
    List Step → Option (List StepResult × Bool × String)
  | [] => some ([], true, "")
  | s :: rest =>
    match executeStep env s ctx with
    | none => none
    | some sr =>
      if sr.success then
        match runSteps env ctx rest with
        | none => none
        | some (srs, ok, err) => some (sr :: srs, ok, err)
      else
        some ([sr], false,
          "step \x27" ++ s.name ++ "\x27 failed: " ++ sr.error)

/-- `Engine.ExecuteWorkflow`.  Counters are incremented at entry (before the
name lookup); the deferred decrement restores `activeJobs` on every exit
path, so the post-call engine has `totalJobs + 1` and an unchanged
`activeJobs`.  An unregistered name returns a failed `Result` before the
workspace is created; a `MkdirTemp` failure returns a failed `Result` with
no steps; otherwise the steps run against the fresh workspace. -/
def ExecuteWorkflow (e : Engine) (env : WEnv) (name : String) (ctx : Context) :
    ExecOutcome :=
  let e' : Engine := { e with totalJobs := e.totalJobs + 1 }
  match lookupWorkflow e name with
  | none =>
    { engine := e'
      result := some { success := false
                       error := "workflow \x27" ++ name ++ "\x27 not found"
                       steps := []
                       context := ctx }
      createdWorkspace := false }
  | some wf =>
    match env.mkdirTemp with
    | none =>
      { engine := e'
        result := some { success := false
                         error := "failed to create temp directory"
                         steps := []
                         context := ctx }
        createdWorkspace := false }
    | some tempDir =>
      let ctx' := { ctx with workDir := tempDir }
      match runSteps env.proc ctx' wf.steps with
      | none => { engine := e', result := none, createdWorkspace := true }
      | some (srs, ok, err) =>
        { engine := e'
          result := some { success := ok, error := err, steps := srs, context := ctx }
          createdWorkspace := true }

/-! ## Application tester data model (`package apptesting`) -/

/-- `apptesting.TestResult` (a CheckOutcome).  Timestamps/durations and the
opaque `Details` payload are omitted: no claim reads them.  `coverage`
models the `float64` field with exact rationals. -/
structure TestResult where
  name : String
  type : String
  status : String
  output : String
  error : String
  coverage : ℚ
deriving Repr, DecidableEq

/-- `requirements.ApplicationRequirement`, restricted to the fields the
tester reads (`Name`, `Type`, `Language`). -/
structure ApplicationRequirement where
  name : String
  type : String
  language : String
deriving Repr, DecidableEq

/-- `apptesting.TestSuite` (the ValidationReport).  Timestamps, duration and
the derived free-text summary are omitted: no claim reads them. -/
structure TestSuite where
  name : String
  appPath : String
  totalTests : Nat
  passedTests : Nat
  failedTests : Nat
  skippedTests : Nat
  coverage : ℚ
  results : List TestResult
  overallStatus : String
deriving Repr, DecidableEq

/-- Oracle for the external effects of the six checks:
`stat p` is `os.Stat(p) err == nil`; `look t` is `exec.LookPath(t) err == nil`;
`run cmd` is `CombinedOutput` of the command list (output, error);
`start cmd` is the `cmd.Start()` error; `httpGet url` is the response status
code (`none` = transport error); `npmTestScript` abstracts the
read-and-parse of `package.json` looking for a `scripts.test` entry;
`walk` is the `filepath.Walk` outcome of the performance check
(error, total byte size, file count). -/
structure TEnv where
  stat : String → Bool
  look : String → Bool
  run : List String → String × Option String
  start : List String → Option String
  httpGet : String → Option Nat
  npmTestScript : Bool
  walk : Option String × Nat × Nat

/-- The common tail of the single-command checks: run the command, record
its combined output, and report `fail` with the error text on a non-zero
exit, else `pass`. -/
def runToResult (env : TEnv) (base : TestResult) (cmd : List String) : TestResult :=
  match (env.run cmd).2 with
  | some msg =>
    { base with status := "fail", error := msg, output := (env.run cmd).1 }
  | none => { base with status := "pass", output := (env.run cmd).1 }

/-- A zero-valued `TestResult` with the given name and category, as built at
the top of each check function. -/
def mkResult (name type : String) : TestResult :=
  { name := name, type := type, status := "", output := "", error := "",
    coverage := 0 }

/-- `detectApplicationLanguage` (source lines 680-708): trust a non-empty
declared language (lowercased, no probing), else probe the marker files in
priority order, defaulting to `"go"`.  The code spells the Node ecosystem
identity `"javascript"`. -/
def detectApplicationLanguage (env : TEnv) (appPath : String)
    (appReq : ApplicationRequirement) : String :=
  if appReq.language ≠ "" then appReq.language.toLower
  else if env.stat (pjoin appPath "package.json") then "javascript"
  else if env.stat (pjoin appPath "go.mod") then "go"
  else if env.stat (pjoin appPath "requirements.txt") then "python"
  else if env.stat (pjoin appPath "pom.xml") then "java"
  else if env.stat (pjoin appPath "composer.json") then "php"
  else if env.stat (pjoin appPath "Gemfile") then "ruby"
  else "go"

/-- `testBuildByLanguage` (source lines 711-785). -/
def testBuildByLanguage (env : TEnv) (appPath language : String) : TestResult :=
  let result := mkResult "Build Test" "build"
  if language = "javascript" ∨ language = "node" ∨ language = "nodejs" then
    if ¬ env.stat (pjoin appPath "package.json") then
      { result with status := "fail", error := "package.json not found" }
    else runToResult env result ["npm", "install"]
  else if language = "go" ∨ language = "golang" then
    runToResult env result ["go", "build", "-v", "."]
  else if language = "python" then
    if env.stat (pjoin appPath "requirements.txt") then
      runToResult env result ["pip", "install", "-r", "requirements.txt"]
    else
      { result with
        status := "skip"
        output := "No requirements.txt found, skipping build test" }
  else if language = "java" then
    if env.stat (pjoin appPath "pom.xml") then
      runToResult env result ["mvn", "compile"]
    else runToResult env result ["javac", "*.java"]
  else if language = "php" then
    if env.stat (pjoin appPath "composer.json") then
      runToResult env result ["composer", "install"]
    else
      { result with
        status := "skip"
        output := "No composer.json found, skipping build test" }
  else if language = "ruby" then
    if env.stat (pjoin appPath "Gemfile") then
      runToResult env result ["bundle", "install"]
    else
      { result with
        status := "skip"
        output := "No Gemfile found, skipping build test" }
  else
    { result with
      status := "skip"
      output := "Build test not implemented for language: " ++ language }

/-- The command table of `testStaticAnalysisByLanguage`
(source lines 795-830). -/
def staticCommands (env : TEnv) (language : String) : List (List String) :=
  if language = "javascript" ∨ language = "node" ∨ language = "nodejs" then
    (if env.look "eslint" then [["eslint", "."]] else []) ++
    (if env.look "prettier" then [["prettier", "--check", "."]] else [])
  else if language = "go" ∨ language = "golang" then
    [["go", "vet", "."], ["go", "fmt", "-l", "."]]
  else if language = "python" then
    (if env.look "flake8" then [["flake8", "."]] else []) ++
    (if env.look "black" then [["black", "--check", "."]] else [])
  else if language = "java" then
    if env.look "checkstyle" then [["checkstyle", "-c", "/google_checks.xml", "."]]
    else []
  else if language = "php" then
    if env.look "phpcs" then [["phpcs", "."]] else []
  else if language = "ruby" then
    if env.look "rubocop" then [["rubocop", "."]] else []
  else []

/-- The command loop shared by the static-analysis and security checks:
run every command, collecting per-command output lines and the error lines
of the commands that exited non-zero. -/
def runAll (env : TEnv) (cmds : List (List String)) : List String × List String :=
  cmds.foldl
    (fun acc c =>
      let (o, e) := env.run c
      (acc.1 ++ [String.intercalate " " c ++ ": " ++ o],
       match e with
       | some m => acc.2 ++ [String.intercalate " " c ++ ": " ++ m]
       | none => acc.2))
    ([], [])

/-- `testStaticAnalysisByLanguage` (source lines 788-866): `skip` when no
tool is available, else `fail` exactly when some tool exited non-zero. -/
def testStaticAnalysisByLanguage (env : TEnv) (appPath language : String) :
    TestResult :=
  let result := mkResult "Static Analysis" "static"
  let cmds := staticCommands env language
  if cmds.length = 0 then
    { result with
      status := "skip"
      output := "No static analysis tools available for language: " ++ language }
  else
    if (runAll env cmds).2.isEmpty then
      { result with
        status := "pass"
        output := String.intercalate "\n" (runAll env cmds).1 }
    else
      { result with
        status := "fail"
        output := String.intercalate "\n" (runAll env cmds).1
        error := String.intercalate "; " (runAll env cmds).2 }

/-- The test-command selection of `testUnitByLanguage`
(source lines 876-913); `none` = no framework found. -/
def unitCommand (env : TEnv) (appPath language : String) : Option (List String) :=
  if language = "javascript" ∨ language = "node" ∨ language = "nodejs" then
    if env.npmTestScript then some ["npm", "test"] else none
  else if language = "go" ∨ language = "golang" then
    some ["go", "test", "-v", "./..."]
  else if language = "python" then
    if env.look "pytest" then some ["pytest", "-v"]
    else if env.look "python" then
      some ["python", "-m", "unittest", "discover", "-v"]
    else none
  else if language = "java" then
    if env.stat (pjoin appPath "pom.xml") then some ["mvn", "test"] else none
  else if language = "php" then
    if env.look "phpunit" then some ["phpunit"] else none
  else if language = "ruby" then
    if env.stat (pjoin appPath "Rakefile") then some ["rake", "test"]
    else if env.look "rspec" then some ["rspec"]
    else none
  else none

/-- `testUnitByLanguage` (source lines 869-935).  Note this function never
sets `Coverage` (unlike the legacy `testUnit`). -/
def testUnitByLanguage (env : TEnv) (appPath language : String) : TestResult :=
  let result := mkResult "Unit Tests" "unit"
  match unitCommand env appPath language with
  | none =>
    { result with
      status := "skip"
      output := "No unit test framework found for language: " ++ language }
  | some cmd => runToResult env result cmd

/-- The server-command and port selection of `testAPIByLanguage`
(source lines 946-974). -/
def apiCommand (env : TEnv) (appPath language : String) :
    Option (List String) × String :=
  if language = "javascript" ∨ language = "node" ∨ language = "nodejs" then
    (if env.stat (pjoin appPath "package.json") then some ["npm", "start"]
     else if env.stat (pjoin appPath "app.js") then some ["node", "app.js"]
     else if env.stat (pjoin appPath "index.js") then some ["node", "index.js"]
     else none, "3000")
  else if language = "go" ∨ language = "golang" then
    if (env.run ["go", "build", "-o", "app", "."]).2.isNone then
      (some ["./app"], "8080")
    else (none, "3000")
  else if language = "python" then
    (if env.stat (pjoin appPath "app.py") then some ["python", "app.py"]
     else if env.stat (pjoin appPath "main.py") then some ["python", "main.py"]
     else none, "5000")
  else (none, "3000")

/-- `testAPIByLanguage` (source lines 938-1036): start the application,
probe four well-known paths, `pass` iff at least one probe answered with a
status below 500, and kill the server afterwards. -/
def testAPIByLanguage (env : TEnv) (appPath language : String) : TestResult :=
  let result := mkResult "API Tests" "api"
  match apiCommand env appPath language with
  | (none, _) =>
    { result with
      status := "skip"
      output := "No runnable application found for language: " ++ language }
  | (some cmd, port) =>
    match env.start cmd with
    | some e =>
      { result with status := "fail", error := "Failed to start application: " ++ e }
    | none =>
      let baseURL := "http://localhost:" ++ port
      let endpoints := ["/", "/health", "/api", "/api/health"]
      let successCount :=
        (endpoints.filter (fun ep =>
          match env.httpGet (baseURL ++ ep) with
          | some code => code < 500
          | none => false)).length
      if 0 < successCount then { result with status := "pass" }
      else
        { result with
          status := "fail"
          error := "No endpoints responded successfully" }

/-- The command table of `testSecurityByLanguage` (source lines 1046-1063). -/
def securityCommands (env : TEnv) (language : String) : List (List String) :=
  if language = "javascript" ∨ language = "node" ∨ language = "nodejs" then
    if env.look "npm" then [["npm", "audit"]] else []
  else if language = "go" ∨ language = "golang" then
    if env.look "gosec" then [["gosec", "./..."]] else []
  else if language = "python" then
    (if env.look "safety" then [["safety", "check"]] else []) ++
    (if env.look "bandit" then [["bandit", "-r", "."]] else [])
  else []

/-- `testSecurityByLanguage` (source lines 1039-1101).  With no tool
available it passes with a note; otherwise it runs the tools, records their
output, and **still reports `pass` on both branches of the final `if`**
(non-zero tool exits are demoted to warnings; the `allPassed` flag in the
source is never set to `false`). -/
def testSecurityByLanguage (env : TEnv) (appPath language : String) : TestResult :=
  let result := mkResult "Security Tests" "security"
  let cmds := securityCommands env language
  if cmds.length = 0 then
    { result with
      status := "pass"
      output := "No security scanning tools available for language: " ++ language
        ++ ", marking as pass" }
  else
    { result with
      status := "pass"
      output := String.intercalate "\n" (runAll env cmds).1 }

/-- `testPerformanceByLanguage` (source lines 1104-1141): walk the tree for
size metrics; `fail` only on a walk error, else `pass`. -/
def testPerformanceByLanguage (env : TEnv) (appPath language : String) :
    TestResult :=
  let result := mkResult "Performance Tests" "performance"
  match env.walk with
  | (some e, _, _) => { result with status := "fail", error := e }
  | (none, totalSize, fileCount) =>
    { result with
      status := "pass"
      output := "Project size: " ++ toString totalSize ++ " bytes, Files: "
        ++ toString fileCount }

/-- The coverage-accumulation loop of `TestApplication`
(source lines 126-133): one pass over the results, summing the strictly
positive coverage values and counting them. -/
def coverageFold (results : List TestResult) : ℚ × Nat :=
  results.foldl
    (fun acc r => if 0 < r.coverage then (acc.1 + r.coverage, acc.2 + 1) else acc)
    (0, 0)

/-- The coverage aggregation of `TestApplication` (source lines 125-136):
the suite coverage is `totalCoverage / coverageCount` when at least one
result reported a positive coverage, else it stays `0`. -/
def computeCoverage (results : List TestResult) : ℚ :=
  if 0 < (coverageFold results).2 then
    (coverageFold results).1 / ((coverageFold results).2 : ℚ)
  else 0

/-- The status tally of `TestApplication` (source lines 106-115). -/
def countStatus (s : String) (results : List TestResult) : Nat :=
  (results.filter (fun r => r.status = s)).length

/-- The ordered CheckOutcome list built by `TestApplication`
(source lines 75-99): build, static, unit, api (the api check only when the
declared type is `"api"` or `"web"`), security, performance. -/
def appResults (env : TEnv) (appPath : String)
    (appReq : ApplicationRequirement) : List TestResult :=
  let language := detectApplicationLanguage env appPath appReq
  [testBuildByLanguage env appPath language,
   testStaticAnalysisByLanguage env appPath language,
   testUnitByLanguage env appPath language] ++
  (if appReq.type = "api" ∨ appReq.type = "web" then
     [testAPIByLanguage env appPath language]
   else []) ++
  [testSecurityByLanguage env appPath language,
   testPerformanceByLanguage env appPath language]

/-- `ApplicationTester.TestApplication` (source lines 64-142): detect the
language, run the checks in order, then tally the statuses, derive the
overall status with fail > pass > skipped priority, and aggregate
coverage. -/
def TestApplication (env : TEnv) (appPath : String)
    (appReq : ApplicationRequirement) : TestSuite :=
  let results := appResults env appPath appReq
  let passed := countStatus "pass" results
  let failed := countStatus "fail" results
  let skipped := countStatus "skip" results
  { name := appReq.name
    appPath := appPath
    totalTests := results.length
    passedTests := passed
    failedTests := failed
    skippedTests := skipped
    coverage := computeCoverage results
    results := results
    overallStatus :=
      if 0 < failed then "failure"
      else if 0 < passed then "success"
      else "skipped" }

/-! ## The hardcoded-secret scanner and the legacy security check

`scanForHardcodedSecrets` (source lines 564-602) matches the Go regular
expressions

* `(?i)api[_-]?key\s*[:=]\s*["'][^"']{10,}["']`
* `(?i)secret[_-]?key\s*[:=]\s*["'][^"']{10,}["']`
* `(?i)token\s*[:=]\s*["'][^"']{10,}["']`
* `(?i)password\s*[:=]\s*["'][^"']{8,}["']`

against the contents of every `.go` file.  The matcher is embedded directly:
a match is an occurrence of the key name (case-insensitively, with the
optional `_`/`-` variants), Go whitespace (`\s`), exactly **one** character
out of `:`/`=`, more whitespace, a quote, at least the minimum number of
non-quote characters, and a closing quote.  Because the character classes
exclude the delimiters, RE2 match-existence coincides with the
maximal-munch scan implemented here.  The filesystem walk is modelled by a
list of (file name, contents) pairs. -/

/-- Go `\s`: `[\t\n\f\r ]`. -/
def isGoSpace (c : Char) : Bool :=
  c = ' ' ∨ c = Char.ofNat 9 ∨ c = Char.ofNat 10 ∨ c = Char.ofNat 12 ∨
    c = Char.ofNat 13

/-- The quote class `["']` of the secret patterns. -/
def isQuote (c : Char) : Bool := c = '"' ∨ c = Char.ofNat 39

/-- Drop the maximal `\s*` run. -/
def skipSpaces : List Char → List Char
  | [] => []
  | c :: cs => if isGoSpace c then skipSpaces cs else c :: cs

/-- Case-insensitive literal match of `key` (given lowercase) at the head of
the input; returns the remaining input on success. -/
def matchKeyAt : List Char → List Char → Option (List Char)
  | rest, [] => some rest
  | [], _ :: _ => none
  | c :: cs, k :: ks => if c.toLower = k then matchKeyAt cs ks else none

/-- Match `\s*[:=]\s*["'][^"']{minLen,}["']` at the head of the input. -/
def matchAssignedLiteral (minLen : Nat) (cs : List Char) : Bool :=
  match skipSpaces cs with
  | [] => false
  | c :: cs2 =>
    if c = ':' ∨ c = '=' then
      match skipSpaces cs2 with
      | [] => false
      | q :: cs4 =>
        if isQuote q then
          let lit := cs4.takeWhile (fun d => ¬ isQuote d)
          decide (minLen ≤ lit.length) && !(cs4.drop lit.length).isEmpty
        else false
    else false

/-- Whether one of the key spellings followed by an assigned quoted literal
of at least `minLen` characters occurs anywhere in the input. -/
def matchesSecretFrom (keys : List (List Char)) (minLen : Nat) :
    List Char → Bool
  | [] => false
  | c :: cs =>
    (keys.any fun key =>
      match matchKeyAt (c :: cs) key with
      | some rest => matchAssignedLiteral minLen rest
      | none => false) ||
    matchesSecretFrom keys minLen cs

/-- One secret pattern: the key-name spellings (the `[_-]?` alternation
expanded) and the minimum literal length. -/
structure SecretPattern where
  keys : List String
  minLen : Nat

/-- The four patterns of `scanForHardcodedSecrets`, in source order. -/
def secretPatterns : List SecretPattern :=
  [ { keys := ["api_key", "api-key", "apikey"], minLen := 10 },
    { keys := ["secret_key", "secret-key", "secretkey"], minLen := 10 },
    { keys := ["token"], minLen := 10 },
    { keys := ["password"], minLen := 8 } ]

/-- `pattern.MatchString(content)` for one secret pattern. -/
def secretPatternMatches (p : SecretPattern) (content : String) : Bool :=
  matchesSecretFrom (p.keys.map String.data) p.minLen content.data

/-- `strings.HasSuffix(name, ".go")`. -/
def hasGoSuffix (s : String) : Bool := List.isSuffixOf ".go".data s.data

/-- `scanForHardcodedSecrets` (source lines 564-602): walk the files, and
for every `.go` file append one finding per pattern that matches its
contents. -/
def scanForHardcodedSecrets (files : List (String × String)) : List String :=
  files.foldl
    (fun secrets file =>
      if hasGoSuffix file.1 then
        secrets ++
          ((secretPatterns.filter fun p => secretPatternMatches p file.2).map
            fun _ => "Potential hardcoded secret in " ++ file.1)
      else secrets)
    []

/-- Substring containment (`strings.Contains`). -/
def hasSub (needle : List Char) : List Char → Bool
  | [] => needle.isPrefixOf []
  | c :: cs => needle.isPrefixOf (c :: cs) || hasSub needle cs

/-- `scanForSecurityIssues` (source lines 525-561): for every `.go` file,
flag potential SQL injection (`db.Exec(` together with `+`) and a hardcoded
password (`password\s*[:=]\s*["'][^"']+["']` on the lowercased contents;
the case-insensitive matcher above is equivalent since lowercasing fixes
neither delimiters nor lengths). -/
def scanForSecurityIssues (files : List (String × String)) : List String :=
  files.foldl
    (fun issues file =>
      if hasGoSuffix file.1 then
        let issues :=
          if hasSub "db.Exec(".data file.2.data ∧ hasSub "+".data file.2.data then
            issues ++ ["Potential SQL injection in " ++ file.1]
          else issues
        if matchesSecretFrom [String.data "password"] 1 file.2.data then
          issues ++ ["Potential hardcoded password in " ++ file.1]
        else issues
      else issues)
    []

/-- The legacy `testSecurity` (source lines 353-392), the only caller of
the two scanners: `fail` with the findings joined iff any finding exists,
else `pass`. -/
def testSecurity (files : List (String × String)) : TestResult :=
  let result := mkResult "Security Tests" "security"
  let issues := scanForSecurityIssues files ++ scanForHardcodedSecrets files
  let result :=
    { result with
      output := "Security scan completed. Found " ++ toString issues.length
        ++ " potential issues." }
  if issues.length > 0 then
    { result with
      status := "fail"
      error := String.intercalate "; " issues }
  else { result with status := "pass" }

/-! ## Spec-side definitions and concrete sample inputs -/

/-- Spec-side definition (from the spec's words, for comparison with the
code-derived aggregation): the arithmetic mean of the coverage values of
exactly those results whose reported coverage is non-zero.  With no such
result this is `0 / 0 = 0` in `ℚ`, matching the spec's "0 when no
CheckOutcome reports coverage". -/
def arithMeanNonzeroCoverage (l : List TestResult) : ℚ :=
  (((l.filter fun r => r.coverage ≠ 0).map fun r => r.coverage).sum) /
    (((l.filter fun r => r.coverage ≠ 0).length : ℚ))

/-- A check status the tally loop of `TestApplication` recognises. -/
def statusOk (r : TestResult) : Prop :=
  r.status = "pass" ∨ r.status = "fail" ∨ r.status = "skip"

/-- A process oracle where every command succeeds instantly. -/
def procConst : ProcEnv :=
  { fileExists := fun _ => false, run := fun _ _ _ => ("", none, 5) }

/-- A process oracle where every command succeeds but takes one hour
(3600000000000 ns) of wall-clock time. -/
def slowProc : ProcEnv :=
  { fileExists := fun _ => false, run := fun _ _ _ => ("", none, 3600000000000) }

/-- The `analyze` step of the default pipeline: declared timeout one
minute. -/
def slowStep : Step :=
  { name := "analyze", command := "echo",
    args := ["Analyzing repository structure..."], workDir := "",
    timeout := 60000000000 }

/-- A workflow environment where workspace creation succeeds. -/
def wenvConst : WEnv := { proc := procConst, mkdirTemp := some "/w" }

/-- A workflow environment where `os.MkdirTemp` fails. -/
def wenvBad : WEnv := { proc := procConst, mkdirTemp := none }

/-- A sample run context. -/
def ctx0 : Context :=
  { repository := "r", cloneURL := "https://example.com/r.git", ref := "main",
    workDir := "" }

/-- Fallback used to name the `Result` inside a concrete `some`. -/
def resultDefault : Result :=
  { success := true, error := "", steps := [], context := ctx0 }

/-- The concrete `Result` of running the default pipeline when workspace
creation fails. -/
def badResult : Result :=
  (ExecuteWorkflow NewEngine wenvBad "ci_cd" ctx0).result.getD resultDefault

/-- The concrete `Result` of a fully successful run of the default
pipeline. -/
def sampleResult : Result :=
  (ExecuteWorkflow NewEngine wenvConst "ci_cd" ctx0).result.getD resultDefault

/-- A tester oracle with an empty filesystem, no tools on the path, every
command succeeding, and a clean walk. -/
def tenvConst : TEnv :=
  { stat := fun _ => false, look := fun _ => false, run := fun _ => ("", none),
    start := fun _ => none, httpGet := fun _ => none, npmTestScript := false,
    walk := (none, 0, 0) }

/-- A tester oracle where `gosec` is installed and exits non-zero
(reporting findings). -/
def tenvGosecFail : TEnv :=
  { tenvConst with
    look := fun t => t = "gosec"
    run := fun _ => ("issues found", some "exit status 1") }

/-- A tester oracle whose only file is `/d/package.json`. -/
def tenvPkg : TEnv :=
  { tenvConst with stat := fun p => p = pjoin "/d" "package.json" }

/-- A requirement with no declared language. -/
def reqNoLang : ApplicationRequirement :=
  { name := "app", type := "cli", language := "" }

/-- A requirement with a mixed-case declared language. -/
def reqGoLang : ApplicationRequirement :=
  { name := "app", type := "cli", language := "GoLang" }

/-- A requirement of the non-api, non-web type `"cli"`. -/
def reqCli : ApplicationRequirement :=
  { name := "app", type := "cli", language := "go" }

/-- A check result reporting 3% coverage (an integer value, so concrete
rational arithmetic stays kernel-computable). -/
def trCov : TestResult :=
  { name := "Unit Tests", type := "unit", status := "pass", output := "",
    error := "", coverage := 3 }

/-! ## Helper lemmas -/

/-- The not-found error carries the pipeline name but is never empty. -/
theorem workflow_not_found_ne_empty (name : String) :
    "workflow \x27" ++ name ++ "\x27 not found" ≠ "" := by
  intro h
  have h2 := congrArg String.length h
  simp [String.length_append] at h2
  exact absurd h2.1.1 (by decide)

/-- `ExecuteWorkflow` updates the engine state identically on every exit
path: `totalJobs` grows by one and the deferred decrement restores
`activeJobs`. -/
theorem ExecuteWorkflow_engine (e : Engine) (env : WEnv) (name : String)
    (ctx : Context) :
    (ExecuteWorkflow e env name ctx).engine =
      { e with totalJobs := e.totalJobs + 1 } := by
  unfold ExecuteWorkflow
  rcases lookupWorkflow e name with _ | wf
  · rfl
  · rcases env.mkdirTemp with _ | d
    · rfl
    · rcases h : runSteps env.proc { ctx with workDir := d } wf.steps with _ | ⟨srs, ok, err⟩
      · simp [h]
      · simp [h]

/-! ## C2 — step timeouts -/

/-- C2.  The claim says every pipeline step's subprocess is bounded by the
step's declared `Timeout`, with a forced kill and a timeout-kind error on
expiry.  The code never enforces this: `executeStep` does not consult
`Step.Timeout` at all (first conjunct: the outcome is invariant under
changing the declared timeout), and a process that runs for one hour
against a one-minute timeout still yields a successful `StepResult` with an
empty error (second conjunct).  The spec itself records in §9 that the
implementation never enforces the declared timeout and that enforcement is
the intended behavior, so this is a code bug, not a spec error. -/
theorem C2_timeout_ignored :
    (∀ (env : ProcEnv) (ctx : Context) (n c w : String) (a : List String)
        (t t' : Nat),
        executeStep env
            { name := n, command := c, args := a, workDir := w, timeout := t }
            ctx =
          executeStep env
            { name := n, command := c, args := a, workDir := w, timeout := t' }
            ctx) ∧
    ∃ sr, executeStep slowProc slowStep ctx0 = some sr ∧
      sr.success = true ∧ sr.error = "" ∧ slowStep.timeout < sr.duration := by
  constructor
  · intro env ctx n c w a t t'
    rfl
  · exact ⟨_, rfl, rfl, rfl, by decide⟩

/-! ## C4 — unregistered pipeline names -/

/-- C4.  For every unregistered pipeline name, `ExecuteWorkflow` returns a
`Result` with success=false and a non-empty error, records no steps, and
never creates the ephemeral workspace directory (the `MkdirTemp` call sits
after the name lookup). -/
theorem C4_unregistered (e : Engine) (env : WEnv) (name : String)
    (ctx : Context) (h : lookupWorkflow e name = none) :
    (ExecuteWorkflow e env name ctx).result =
      some { success := false
             error := "workflow \x27" ++ name ++ "\x27 not found"
             steps := []
             context := ctx } ∧
    "workflow \x27" ++ name ++ "\x27 not found" ≠ "" ∧
    (ExecuteWorkflow e env name ctx).createdWorkspace = false := by
  unfold ExecuteWorkflow
  rw [h]
  exact ⟨rfl, workflow_not_found_ne_empty name, rfl⟩

/-- Witness for C4 at the fresh engine and the unregistered name
`"nope"`. -/
theorem C4_witness :
    (ExecuteWorkflow NewEngine wenvConst "nope" ctx0).result =
      some { success := false
             error := "workflow \x27nope\x27 not found"
             steps := []
             context := ctx0 } ∧
    "workflow \x27nope\x27 not found" ≠ "" ∧
    (ExecuteWorkflow NewEngine wenvConst "nope" ctx0).createdWorkspace = false :=
  C4_unregistered NewEngine wenvConst "nope" ctx0 (by decide)

/-! ## C6 — run counters on unregistered names -/

/-- C6 counterexample.  The claim says the counters are incremented only
after the name lookup succeeds, so `TotalCount` is unchanged by a call with
an unregistered name.  In the code both counters are incremented *before*
the lookup: calling the fresh engine (total = 0) with the unregistered name
`"nope"` leaves the total counter at 1, not 0. -/
theorem C6_counterexample :
    lookupWorkflow NewEngine "nope" = none ∧
    GetTotalJobs NewEngine = 0 ∧
    GetTotalJobs (ExecuteWorkflow NewEngine wenvConst "nope" ctx0).engine = 1 ∧
    GetTotalJobs (ExecuteWorkflow NewEngine wenvConst "nope" ctx0).engine ≠
      GetTotalJobs NewEngine := by
  refine ⟨by decide, rfl, rfl, by decide⟩

/-- C6 as amended: the active/total counters are incremented at entry,
before the name lookup, on every call; the deferred decrement restores the
active counter on every exit path.  Hence after a call with an unregistered
name `TotalCount` equals its previous value plus one (not its previous
value), and `ActiveCount` is back to its pre-call value. -/
theorem C6_amended (e : Engine) (env : WEnv) (name : String) (ctx : Context) :
    GetTotalJobs (ExecuteWorkflow e env name ctx).engine = GetTotalJobs e + 1 ∧
    GetActiveJobs (ExecuteWorkflow e env name ctx).engine = GetActiveJobs e := by
  rw [ExecuteWorkflow_engine]
  exact ⟨rfl, rfl⟩

/-! ## C10 — clone-argument substitution bounds -/

/-- C10.  The claim says `executeStep` never indexes `Args` out of bounds
because the guard admits exactly the lengths it writes to.  The guard
`len(args) >= 2` admits a length-2 list and then writes `args[2]`, which
panics: on a registered clone step with `Args = ["clone", ""]` the
substitution faults (first two conjuncts — `none` models the Go panic),
while the default registered workflow's clone step (three arguments) is
safe (last conjunct).  The guard is a plain off-by-one against its own
evident intent, so this is recorded as a code bug. -/
theorem C10_clone_oob :
    cloneArgsSubst ["clone", ""] ctx0 = none ∧
    executeStep procConst
        { name := "clone", command := "git", args := ["clone", ""],
          workDir := "", timeout := 300000000000 } ctx0 = none ∧
    (executeStep procConst (cicdWorkflow.steps.get ⟨0, by decide⟩)
        ctx0).isSome = true := by
  exact ⟨rfl, rfl, rfl⟩

/-! ## C5 — step results are an executed prefix -/

/-- Specification of the step loop: the recorded results are the executions
of a declaration-order prefix of the steps, a short prefix ends in a
failure, and the final flag is the conjunction of the recorded flags. -/
theorem runSteps_spec (env : ProcEnv) (ctx : Context) (steps : List Step)
    (srs : List StepResult) (ok : Bool) (err : String)
    (h : runSteps env ctx steps = some (srs, ok, err)) :
    srs.length ≤ steps.length ∧
    (∀ i (hi : i < srs.length) (hs : i < steps.length),
        executeStep env (steps.get ⟨i, hs⟩) ctx = some (srs.get ⟨i, hi⟩)) ∧
    (srs.length < steps.length →
        srs.getLast?.map StepResult.success = some false) ∧
    ok = srs.all (fun sr => sr.success) := by
  induction steps generalizing srs ok err with
  | nil =>
    simp only [runSteps, Option.some.injEq, Prod.mk.injEq] at h
    obtain ⟨h1, h2, h3⟩ := h
    subst h1
    subst h2
    refine ⟨Nat.le_refl _, ?_, ?_, rfl⟩
    · intro i hi hs
      exact absurd hi (Nat.not_lt_zero i)
    · intro hlt
      exact absurd hlt (Nat.lt_irrefl 0)
  | cons s rest ih =>
    rw [runSteps] at h
    rcases hes : executeStep env s ctx with _ | sr
    · simp only [hes] at h
      exact Option.noConfusion h
    · simp only [hes] at h
      by_cases hsr : sr.success = true
      · rw [if_pos hsr] at h
        rcases hrs : runSteps env ctx rest with _ | t
        · simp only [hrs] at h
          exact Option.noConfusion h
        · obtain ⟨srs', ok', err'⟩ := t
          simp only [hrs] at h
          simp only [Option.some.injEq, Prod.mk.injEq] at h
          obtain ⟨h1, h2, h3⟩ := h
          subst h1
          subst h2
          obtain ⟨ih1, ih2, ih3, ih4⟩ := ih srs' ok' err' hrs
          refine ⟨Nat.succ_le_succ ih1, ?_, ?_, ?_⟩
          · intro i hi hs
            match i with
            | 0 => exact hes
            | n + 1 =>
              exact ih2 n (Nat.lt_of_succ_lt_succ hi) (Nat.lt_of_succ_lt_succ hs)
          · intro hlt
            have h3 := ih3 (Nat.lt_of_succ_lt_succ hlt)
            cases srs' with
            | nil => simp at h3
            | cons b t2 =>
              rw [List.getLast?_cons_cons]
              exact h3
          · simp [List.all_cons, hsr]
            exact ih4
      · rw [if_neg hsr] at h
        simp only [Option.some.injEq, Prod.mk.injEq] at h
        obtain ⟨h1, h2, h3⟩ := h
        subst h1
        subst h2
        simp only [Bool.not_eq_true] at hsr
        refine ⟨Nat.succ_le_succ (Nat.zero_le _), ?_, ?_, ?_⟩
        · intro i hi hs
          match i with
          | 0 => exact hes
          | n + 1 =>
            exact absurd hi
              (by simp only [List.length_cons, List.length_nil]; omega)
        · intro _
          simp [List.getLast?, hsr]
        · simp [List.all_cons, hsr]

/-- C5 as amended.  The claim holds on the step loop, but only once the
ephemeral workspace has been created: (a) when `MkdirTemp` succeeds, every
completed run's StepResults are the executions of a declaration-order
prefix of the registered workflow's steps, a strictly shorter prefix ends
in a failed StepResult, and `Result.Success` is the conjunction of the
recorded success flags; (b) when `MkdirTemp` fails, the claim as stated is
violated: the returned `Result` has an empty StepResult list (so no last
failing entry) together with success=false (while the conjunction over the
empty list is true). -/
theorem C5_amended (e : Engine) (env : WEnv) (name : String) (ctx : Context)
    (wf : Workflow) (hw : lookupWorkflow e name = some wf) :
    (∀ d, env.mkdirTemp = some d →
      ∀ r, (ExecuteWorkflow e env name ctx).result = some r →
        r.steps.length ≤ wf.steps.length ∧
        (∀ i (hi : i < r.steps.length) (hs : i < wf.steps.length),
            executeStep env.proc (wf.steps.get ⟨i, hs⟩) { ctx with workDir := d }
              = some (r.steps.get ⟨i, hi⟩)) ∧
        (r.steps.length < wf.steps.length →
            r.steps.getLast?.map StepResult.success = some false) ∧
        r.success = r.steps.all (fun sr => sr.success)) ∧
    (env.mkdirTemp = none →
      ∀ r, (ExecuteWorkflow e env name ctx).result = some r →
        r.steps = [] ∧ r.success = false) := by
  constructor
  · intro d hd r hr
    unfold ExecuteWorkflow at hr
    simp only [hw, hd] at hr
    rcases hrs : runSteps env.proc { ctx with workDir := d } wf.steps with _ | t
    · simp only [hrs] at hr
      exact Option.noConfusion hr
    · obtain ⟨srs, ok, err⟩ := t
      simp only [hrs] at hr
      simp only [Option.some.injEq] at hr
      subst hr
      obtain ⟨h1, h2, h3, h4⟩ := runSteps_spec env.proc _ wf.steps srs ok err hrs
      exact ⟨h1, h2, h3, h4⟩
  · intro hd r hr
    unfold ExecuteWorkflow at hr
    simp only [hw, hd] at hr
    simp only [Option.some.injEq] at hr
    subst hr
    exact ⟨rfl, rfl⟩

/-- Witness for C5 at the default engine and a process oracle where every
step succeeds: the full five-step prefix runs and the success flag is the
conjunction of the recorded flags. -/
theorem C5_witness :
    sampleResult.steps.length ≤ cicdWorkflow.steps.length ∧
    sampleResult.success = sampleResult.steps.all (fun sr => sr.success) := by
  have h :=
    (C5_amended NewEngine wenvConst "ci_cd" ctx0 cicdWorkflow rfl).1 "/w" rfl
      sampleResult rfl
  exact ⟨h.1, h.2.2.2⟩

/-- C5 counterexample.  On a registered workflow whose run fails at
workspace creation (`MkdirTemp` error), the claim as stated is false: the
returned `Result` is a completed run whose StepResult list (the empty
prefix, strictly shorter than the five declared steps) has no last element
with success=false, and whose `Success` flag (false) differs from the
conjunction of the recorded StepResults' flags (vacuously true). -/
theorem C5_counterexample :
    (ExecuteWorkflow NewEngine wenvBad "ci_cd" ctx0).result = some badResult ∧
    badResult.steps.length < cicdWorkflow.steps.length ∧
    badResult.steps.getLast?.map StepResult.success = none ∧
    badResult.success = false ∧
    badResult.steps.all (fun sr => sr.success) = true := by
  exact ⟨rfl, by decide, rfl, rfl, rfl⟩

/-! ## Check-level lemmas for the application tester -/

/-- The single-command tail reports either `pass` or `fail`. -/
theorem runToResult_status (env : TEnv) (base : TestResult) (cmd : List String) :
    (runToResult env base cmd).status = "pass" ∨
    (runToResult env base cmd).status = "fail" := by
  rcases h : (env.run cmd).2 with _ | msg <;> simp [runToResult, h]

/-- The single-command tail reports a recognised status. -/
theorem runToResult_statusOk (env : TEnv) (base : TestResult)
    (cmd : List String) : statusOk (runToResult env base cmd) := by
  rcases runToResult_status env base cmd with h | h
  · exact Or.inl h
  · exact Or.inr (Or.inl h)

/-- The single-command tail preserves the category tag. -/
theorem runToResult_type (env : TEnv) (base : TestResult) (cmd : List String) :
    (runToResult env base cmd).type = base.type := by
  rcases h : (env.run cmd).2 with _ | msg <;> simp [runToResult, h]

/-- The build check reports a recognised status. -/
theorem testBuildByLanguage_statusOk (env : TEnv) (p l : String) :
    statusOk (testBuildByLanguage env p l) := by
  unfold testBuildByLanguage
  dsimp only
  split_ifs <;>
    first
      | exact runToResult_statusOk _ _ _
      | exact Or.inr (Or.inr rfl)
      | exact Or.inr (Or.inl rfl)

/-- The build check is tagged `build`. -/
theorem testBuildByLanguage_type (env : TEnv) (p l : String) :
    (testBuildByLanguage env p l).type = "build" := by
  unfold testBuildByLanguage
  dsimp only
  split_ifs <;> first | exact runToResult_type _ _ _ | rfl

/-- The static-analysis check reports a recognised status. -/
theorem testStaticAnalysisByLanguage_statusOk (env : TEnv) (p l : String) :
    statusOk (testStaticAnalysisByLanguage env p l) := by
  unfold testStaticAnalysisByLanguage
  dsimp only
  split_ifs <;>
    first
      | exact Or.inl rfl
      | exact Or.inr (Or.inl rfl)
      | exact Or.inr (Or.inr rfl)

/-- The static-analysis check is tagged `static`. -/
theorem testStaticAnalysisByLanguage_type (env : TEnv) (p l : String) :
    (testStaticAnalysisByLanguage env p l).type = "static" := by
  unfold testStaticAnalysisByLanguage
  dsimp only
  split_ifs <;> rfl

/-- The unit check reports a recognised status. -/
theorem testUnitByLanguage_statusOk (env : TEnv) (p l : String) :
    statusOk (testUnitByLanguage env p l) := by
  unfold testUnitByLanguage
  rcases h : unitCommand env p l with _ | cmd
  · exact Or.inr (Or.inr rfl)
  · exact runToResult_statusOk _ _ _

/-- The unit check is tagged `unit`. -/
theorem testUnitByLanguage_type (env : TEnv) (p l : String) :
    (testUnitByLanguage env p l).type = "unit" := by
  unfold testUnitByLanguage
  rcases h : unitCommand env p l with _ | cmd
  · rfl
  · exact runToResult_type _ _ _

/-- The api check reports a recognised status. -/
theorem testAPIByLanguage_statusOk (env : TEnv) (p l : String) :
    statusOk (testAPIByLanguage env p l) := by
  unfold testAPIByLanguage
  rcases hac : apiCommand env p l with ⟨_ | cmd, port⟩
  · exact Or.inr (Or.inr rfl)
  · dsimp only
    rcases hst : env.start cmd with _ | e
    · dsimp only
      split_ifs
      · exact Or.inl rfl
      · exact Or.inr (Or.inl rfl)
    · exact Or.inr (Or.inl rfl)

/-- The api check is tagged `api`. -/
theorem testAPIByLanguage_type (env : TEnv) (p l : String) :
    (testAPIByLanguage env p l).type = "api" := by
  unfold testAPIByLanguage
  rcases hac : apiCommand env p l with ⟨_ | cmd, port⟩
  · rfl
  · dsimp only
    rcases hst : env.start cmd with _ | e
    · dsimp only
      split_ifs <;> rfl
    · rfl

/-- The security check always reports `pass` (both branches of the final
`if` in the source assign `"pass"`). -/
theorem testSecurityByLanguage_status (env : TEnv) (p l : String) :
    (testSecurityByLanguage env p l).status = "pass" := by
  unfold testSecurityByLanguage
  dsimp only
  split_ifs <;> rfl

/-- The security check is tagged `security`. -/
theorem testSecurityByLanguage_type (env : TEnv) (p l : String) :
    (testSecurityByLanguage env p l).type = "security" := by
  unfold testSecurityByLanguage
  dsimp only
  split_ifs <;> rfl

/-- The performance check reports a recognised status. -/
theorem testPerformanceByLanguage_statusOk (env : TEnv) (p l : String) :
    statusOk (testPerformanceByLanguage env p l) := by
  unfold testPerformanceByLanguage
  rcases hw : env.walk with ⟨_ | e, size, count⟩
  · exact Or.inl rfl
  · exact Or.inr (Or.inl rfl)

/-- The performance check is tagged `performance`. -/
theorem testPerformanceByLanguage_type (env : TEnv) (p l : String) :
    (testPerformanceByLanguage env p l).type = "performance" := by
  unfold testPerformanceByLanguage
  rcases hw : env.walk with ⟨_ | e, size, count⟩ <;> rfl

/-- Every result in the list built by `TestApplication` carries a
recognised status. -/
theorem appResults_statusOk (env : TEnv) (p : String)
    (appReq : ApplicationRequirement) :
    ∀ r ∈ appResults env p appReq, statusOk r := by
  unfold appResults
  refine List.forall_mem_append.mpr ⟨List.forall_mem_append.mpr ⟨?_, ?_⟩, ?_⟩
  · refine List.forall_mem_cons.mpr ⟨testBuildByLanguage_statusOk _ _ _,
      List.forall_mem_cons.mpr ⟨testStaticAnalysisByLanguage_statusOk _ _ _,
      List.forall_mem_singleton.mpr (testUnitByLanguage_statusOk _ _ _)⟩⟩
  · split_ifs
    · exact List.forall_mem_singleton.mpr (testAPIByLanguage_statusOk _ _ _)
    · intro r hr
      exact absurd hr (List.not_mem_nil r)
  · refine List.forall_mem_cons.mpr ⟨?_, List.forall_mem_singleton.mpr
      (testPerformanceByLanguage_statusOk _ _ _)⟩
    exact Or.inl (testSecurityByLanguage_status _ _ _)

/-- The three status tallies of a list of recognised statuses partition its
length. -/
theorem countStatus_partition (l : List TestResult) (h : ∀ r ∈ l, statusOk r) :
    countStatus "pass" l + countStatus "fail" l + countStatus "skip" l =
      l.length := by
  induction l with
  | nil => rfl
  | cons a t ih =>
    have ha := h a (List.mem_cons_self a t)
    have iht := ih (fun r hr => h r (List.mem_cons_of_mem a hr))
    unfold countStatus at iht ⊢
    rcases ha with h1 | h1 | h1 <;>
      simp only [List.filter_cons, h1] <;>
      simp <;>
      omega

/-! ## C8 — report tallies and the overall status -/

/-- C8.  In every report produced by `TestApplication`, `TotalTests` equals
the length of the `Results` list and equals
`PassedTests + FailedTests + SkippedTests` (every check reports one of
pass/fail/skip, so the three tallies partition the list), and the overall
status is `"failure"` if any check failed, else `"success"` if any check
passed, else `"skipped"`. -/
theorem C8_tallies (env : TEnv) (p : String) (appReq : ApplicationRequirement) :
    (TestApplication env p appReq).totalTests =
      (TestApplication env p appReq).results.length ∧
    (TestApplication env p appReq).totalTests =
      (TestApplication env p appReq).passedTests +
        (TestApplication env p appReq).failedTests +
        (TestApplication env p appReq).skippedTests ∧
    (TestApplication env p appReq).overallStatus =
      (if 0 < (TestApplication env p appReq).failedTests then "failure"
       else if 0 < (TestApplication env p appReq).passedTests then "success"
       else "skipped") := by
  refine ⟨rfl, ?_, rfl⟩
  have h := countStatus_partition (appResults env p appReq)
    (appResults_statusOk env p appReq)
  show (appResults env p appReq).length =
    countStatus "pass" (appResults env p appReq) +
      countStatus "fail" (appResults env p appReq) +
      countStatus "skip" (appResults env p appReq)
  omega

/-! ## C1 — number and identity of the checks -/

/-- C1 counterexample.  The claim says every report contains exactly six
CheckOutcomes regardless of the application's declared type.  For a
requirement of type `"cli"` the api check is not run (the source guards it
with `Type == "api" || Type == "web"`), so the report has five
CheckOutcomes, not six. -/
theorem C1_counterexample :
    reqCli.type = "cli" ∧
    (TestApplication tenvConst "/app" reqCli).totalTests = 5 ∧
    (TestApplication tenvConst "/app" reqCli).totalTests ≠ 6 := by
  exact ⟨rfl, rfl, by decide⟩

/-- C1 as amended.  A report contains six CheckOutcomes — build, static,
unit, api, security, performance, in that order — when the declared type is
`"api"` or `"web"`, and five (the same list without api) otherwise.  The
composition of the result list is the same for every environment, so no
check is skipped because another check failed. -/
theorem C1_amended (env : TEnv) (p : String) (appReq : ApplicationRequirement) :
    (TestApplication env p appReq).results.map (fun r => r.type) =
      (if appReq.type = "api" ∨ appReq.type = "web" then
        ["build", "static", "unit", "api", "security", "performance"]
      else ["build", "static", "unit", "security", "performance"]) ∧
    (TestApplication env p appReq).totalTests =
      (if appReq.type = "api" ∨ appReq.type = "web" then 6 else 5) := by
  constructor
  · show (appResults env p appReq).map (fun r => r.type) = _
    unfold appResults
    dsimp only
    by_cases hc : appReq.type = "api" ∨ appReq.type = "web"
    · rw [if_pos hc, if_pos hc]
      simp [testBuildByLanguage_type, testStaticAnalysisByLanguage_type,
        testUnitByLanguage_type, testAPIByLanguage_type,
        testSecurityByLanguage_type, testPerformanceByLanguage_type]
    · rw [if_neg hc, if_neg hc]
      simp [testBuildByLanguage_type, testStaticAnalysisByLanguage_type,
        testUnitByLanguage_type, testSecurityByLanguage_type,
        testPerformanceByLanguage_type]
  · show (appResults env p appReq).length = _
    unfold appResults
    dsimp only
    by_cases hc : appReq.type = "api" ∨ appReq.type = "web"
    · rw [if_pos hc, if_pos hc]
      simp
    · rw [if_neg hc, if_neg hc]
      simp

/-! ## C7 — coverage aggregation -/

/-- Unrolling the coverage-accumulation fold. -/
theorem coverageFold_go (l : List TestResult) (a : ℚ) (n : Nat) :
    l.foldl
        (fun acc r =>
          if 0 < r.coverage then (acc.1 + r.coverage, acc.2 + 1) else acc)
        (a, n) =
      (a + ((l.filter fun r => 0 < r.coverage).map fun r => r.coverage).sum,
       n + (l.filter fun r => 0 < r.coverage).length) := by
  induction l generalizing a n with
  | nil => simp
  | cons x t ih =>
    by_cases hx : 0 < x.coverage
    · rw [List.foldl_cons, if_pos hx, ih]
      have hd : decide (0 < x.coverage) = true := decide_eq_true hx
      simp only [List.filter_cons, hd, if_true, List.map_cons, List.sum_cons,
        List.length_cons, Prod.mk.injEq]
      refine ⟨by ring, by omega⟩
    · rw [List.foldl_cons, if_neg hx, ih]
      have hd : decide (0 < x.coverage) = false := decide_eq_false hx
      simp only [List.filter_cons, hd, Bool.false_eq_true, if_false,
        Prod.mk.injEq]

/-- The accumulated pair is the sum and count over the positive-coverage
results. -/
theorem coverageFold_eq (l : List TestResult) :
    coverageFold l =
      (((l.filter fun r => 0 < r.coverage).map fun r => r.coverage).sum,
       (l.filter fun r => 0 < r.coverage).length) := by
  unfold coverageFold
  rw [coverageFold_go]
  simp

/-- With non-negative coverage values, filtering on positivity and on
non-zeroness agree. -/
theorem filter_pos_eq_filter_ne (l : List TestResult)
    (h : ∀ r ∈ l, 0 ≤ r.coverage) :
    (l.filter fun r => 0 < r.coverage) = (l.filter fun r => r.coverage ≠ 0) := by
  apply List.filter_congr
  intro r hr
  have h0 := h r hr
  simp only [decide_eq_decide]
  constructor
  · intro hlt
    exact ne_of_gt hlt
  · intro hne
    exact lt_of_le_of_ne h0 (Ne.symm hne)

/-- C7.  The report's Coverage is the code's aggregation of its own Results
list (first conjunct, tying the field to the loop), and that aggregation is
the arithmetic mean over exactly the results with non-zero coverage
(coverage values are non-negative in the code, where they are parsed from a
`coverage: N% of statements` line): it is `0` when no result reports a
non-zero coverage and equals the single reported value when exactly one
does.  `float64` arithmetic is modelled exactly over `ℚ`. -/
theorem C7_coverage :
    (∀ (env : TEnv) (p : String) (appReq : ApplicationRequirement),
        (TestApplication env p appReq).coverage =
          computeCoverage (TestApplication env p appReq).results) ∧
    ∀ l : List TestResult, (∀ r ∈ l, 0 ≤ r.coverage) →
      computeCoverage l = arithMeanNonzeroCoverage l ∧
      ((∀ r ∈ l, r.coverage = 0) → computeCoverage l = 0) ∧
      (∀ c : ℚ,
        ((l.filter fun r => r.coverage ≠ 0).map fun r => r.coverage) = [c] →
        computeCoverage l = c) := by
  constructor
  · intro env p appReq
    rfl
  · intro l h
    have hf := filter_pos_eq_filter_ne l h
    refine ⟨?_, ?_, ?_⟩
    · unfold computeCoverage arithMeanNonzeroCoverage
      rw [coverageFold_eq, hf]
      dsimp only
      by_cases hn : (l.filter fun r => r.coverage ≠ 0).length = 0
      · rw [hn]
        rw [if_neg (lt_irrefl 0)]
        rw [Nat.cast_zero, div_zero]
      · rw [if_pos (Nat.pos_of_ne_zero hn)]
    · intro hz
      have hnil : (l.filter fun r => 0 < r.coverage) = [] := by
        rw [List.filter_eq_nil_iff]
        intro r hr
        simp [hz r hr]
      unfold computeCoverage
      rw [coverageFold_eq, hnil]
      simp
    · intro c hc
      unfold computeCoverage
      rw [coverageFold_eq, hf]
      have hlen : (l.filter fun r => r.coverage ≠ 0).length = 1 := by
        have := congrArg List.length hc
        simpa using this
      have hsum :
          ((l.filter fun r => r.coverage ≠ 0).map fun r => r.coverage).sum
            = c := by
        rw [hc]
        simp
      dsimp only
      rw [hlen, hsum]
      norm_num

/-- Witness for C7 on a one-element list reporting 85.5% coverage. -/
theorem C7_witness :
    (∀ r ∈ [trCov], (0:ℚ) ≤ r.coverage) ∧
    computeCoverage [trCov] = 3 :=
  ⟨by decide, (C7_coverage.2 [trCov] (by decide)).2.2 3 (by decide)⟩

/-! ## C9 — language detection -/

/-- C9.  (a) A non-empty declared language is returned lowercased, and the
result does not depend on the filesystem oracle (no probing); (b) with no
declared language, a directory containing `package.json` yields
`"javascript"` — the code's spelling of the node identity — whatever the
other marker files say, `package.json` being first in the fixed priority
order; (c) with no declared language and none of the six marker files, the
default `"go"` is returned; the detector is total, so it never yields an
error. -/
theorem C9_detect :
    (∀ (env env2 : TEnv) (p : String) (appReq : ApplicationRequirement),
        appReq.language ≠ "" →
        detectApplicationLanguage env p appReq = appReq.language.toLower ∧
        detectApplicationLanguage env p appReq =
          detectApplicationLanguage env2 p appReq) ∧
    (∀ (env : TEnv) (p : String) (appReq : ApplicationRequirement),
        appReq.language = "" →
        env.stat (pjoin p "package.json") = true →
        detectApplicationLanguage env p appReq = "javascript") ∧
    (∀ (env : TEnv) (p : String) (appReq : ApplicationRequirement),
        appReq.language = "" →
        env.stat (pjoin p "package.json") = false →
        env.stat (pjoin p "go.mod") = false →
        env.stat (pjoin p "requirements.txt") = false →
        env.stat (pjoin p "pom.xml") = false →
        env.stat (pjoin p "composer.json") = false →
        env.stat (pjoin p "Gemfile") = false →
        detectApplicationLanguage env p appReq = "go") := by
  refine ⟨?_, ?_, ?_⟩
  · intro env env2 p appReq h
    constructor
    · unfold detectApplicationLanguage
      rw [if_pos h]
    · unfold detectApplicationLanguage
      rw [if_pos h, if_pos h]
  · intro env p appReq h hstat
    unfold detectApplicationLanguage
    rw [if_neg (by simp [h]), if_pos hstat]
  · intro env p appReq h h1 h2 h3 h4 h5 h6
    unfold detectApplicationLanguage
    rw [if_neg (by simp [h]), if_neg (by simp [h1]), if_neg (by simp [h2]),
      if_neg (by simp [h3]), if_neg (by simp [h4]), if_neg (by simp [h5]),
      if_neg (by simp [h6])]

/-- Witness for C9: a `package.json`-only directory, an empty directory,
and a declared mixed-case language. -/
theorem C9_witness :
    detectApplicationLanguage tenvPkg "/d" reqNoLang = "javascript" ∧
    detectApplicationLanguage tenvConst "/d" reqNoLang = "go" ∧
    detectApplicationLanguage tenvConst "/d" reqGoLang =
      reqGoLang.language.toLower := by
  refine ⟨?_, ?_, ?_⟩
  · exact C9_detect.2.1 tenvPkg "/d" reqNoLang rfl (by decide)
  · exact C9_detect.2.2 tenvConst "/d" reqNoLang rfl rfl rfl rfl rfl rfl rfl
  · exact (C9_detect.1 tenvConst tenvConst "/d" reqGoLang (by decide)).1

/-! ## C3 — the security check and the secret scanner -/

/-- C3 counterexample.  The claim says the security check fails iff at
least one finding exists.  The check wired into `TestApplication`
(`testSecurityByLanguage`) reports `pass` with no tool installed *and* with
`gosec` installed and exiting non-zero, and its status is independent of
the scanners; in particular it does not fail on a target whose files make
the hardcoded-secret scanner produce a finding. -/
theorem C3_counterexample :
    (testSecurityByLanguage tenvConst "/app" "go").status = "pass" ∧
    (testSecurityByLanguage tenvGosecFail "/app" "go").status = "pass" ∧
    scanForHardcodedSecrets [("main.go", "password = \"supersecret123\"")] ≠ [] ∧
    (testSecurityByLanguage tenvGosecFail "/app" "go").status ≠ "fail" := by
  exact ⟨rfl, rfl, by decide, by decide⟩

/-- C3 as amended.  (a) The security check run by `TestApplication` returns
`pass` for every target and environment (tool warnings are recorded in the
output, never as a failure).  (b) The fail-iff-finding behavior belongs to
the legacy `testSecurity`, which fails exactly when the two scanners return
at least one finding.  (c) The secret scanner does *not* flag the Go-style
`password := "supersecret123"` (its `[:=]` class matches a single `:` or
`=`, and `\s*` cannot absorb the second operator character), it *does* flag
`password = "supersecret123"`, and it does not flag reading the same value
from an environment variable in either spelling. -/
theorem C3_amended :
    (∀ (env : TEnv) (appPath language : String),
        (testSecurityByLanguage env appPath language).status = "pass") ∧
    (∀ files : List (String × String),
        ((testSecurity files).status = "fail" ↔
          scanForSecurityIssues files ++ scanForHardcodedSecrets files ≠ [])) ∧
    scanForHardcodedSecrets [("main.go", "password := \"supersecret123\"")]
      = [] ∧
    scanForHardcodedSecrets [("main.go", "password = \"supersecret123\"")]
      ≠ [] ∧
    scanForHardcodedSecrets [("main.go", "password := os.Getenv(\"PASSWORD\")")]
      = [] ∧
    scanForHardcodedSecrets [("main.go", "password = os.Getenv(\"PASSWORD\")")]
      = [] := by
  refine ⟨testSecurityByLanguage_status, ?_, by decide, by decide, by decide,
    by decide⟩
  intro files
  unfold testSecurity
  dsimp only
  by_cases h :
      0 < (scanForSecurityIssues files ++ scanForHardcodedSecrets files).length
  · rw [if_pos h]
    exact ⟨fun _ => List.length_pos.mp h, fun _ => rfl⟩
  · rw [if_neg h]
    constructor
    · intro hfail
      have hps : ("pass" : String) = "fail" := hfail
      exact absurd hps (by decide)
    · intro hne
      have h0 :
          (scanForSecurityIssues files ++ scanForHardcodedSecrets files).length
            = 0 := Nat.eq_zero_of_not_pos h
      exact absurd (List.length_eq_zero.mp h0) hne

/-- Witness for C3 on a one-file target carrying a hardcoded-password
finding: the legacy `testSecurity` fails on it. -/
theorem C3_witness :
    (testSecurity [("main.go", "password = \"supersecret123\"")]).status
      = "fail" :=
  (C3_amended.2.1 [("main.go", "password = \"supersecret123\"")]).mpr
    (by decide)

end GolangAgent
